import Mathlib

/-!
Verification of the `lp-builder-config` charm build-recipe reconciliation
engine (`charm_project.py` / `main.py`).  The Python code is shallowly
embedded: YAML/Python values become `PyVal`, Python dicts become
insertion-ordered association lists, stateful methods become functions that
also return the list of Launchpad gateway calls they made, and raising an
exception becomes an `Except`/`Option` error value.
-/

namespace LPBuilder

/-- Python values as they occur in the loaded YAML configuration. -/
inductive PyVal : Type where
  | none : PyVal
  | bool : Bool → PyVal
  | int : Int → PyVal
  | str : String → PyVal
  | list : List PyVal → PyVal
  | dict : List (String × PyVal) → PyVal

mutual

/-- Structural equality on `PyVal` (Python `==` on loaded YAML values). -/
def PyVal.beq : PyVal → PyVal → Bool
  | .none, .none => true
  | .bool a, .bool b => a == b
  | .int a, .int b => a == b
  | .str a, .str b => a == b
  | .list xs, .list ys => PyVal.beqList xs ys
  | .dict d, .dict e => PyVal.beqDict d e
  | _, _ => false

/-- Elementwise `PyVal.beq` on lists. -/
def PyVal.beqList : List PyVal → List PyVal → Bool
  | [], [] => true
  | x :: xs, y :: ys => PyVal.beq x y && PyVal.beqList xs ys
  | _, _ => false

/-- Entrywise `PyVal.beq` on dict entry lists. -/
def PyVal.beqDict : List (String × PyVal) → List (String × PyVal) → Bool
  | [], [] => true
  | p :: ps, q :: qs => p.1 == q.1 && PyVal.beq p.2 q.2 && PyVal.beqDict ps qs
  | _, _ => false

end

instance : BEq PyVal := ⟨PyVal.beq⟩

/-- A Python dict, modelled as an insertion-ordered association list. -/
abbrev Dict (α : Type) := List (String × α)

/-- Python `k in d`. -/
def dictMem : Dict α → String → Bool
  | [], _ => false
  | p :: ps, k => p.1 == k || dictMem ps k

/-- Python `d.get(k)`; `Option.none` models the absent key (Python `None`
default). -/
def dictGet? : Dict α → String → Option α
  | [], _ => Option.none
  | p :: ps, k => if p.1 == k then some p.2 else dictGet? ps k

/-- Python `d[k] = v`: overwrite the entry in place if the key exists, else
append at the end (insertion order is preserved, as for a Python dict). -/
def dictSet : Dict α → String → α → Dict α
  | [], k, v => [(k, v)]
  | p :: ps, k, v => if p.1 == k then (k, v) :: ps else p :: dictSet ps k v

/-- Python `d.setdefault(k, v)`. -/
def setdefault (d : Dict α) (k : String) (v : α) : Dict α :=
  if dictMem d k then d else d ++ [(k, v)]

/-- Python `d.update(other)`: apply `d[k] = v` for each item of `other` in
order. -/
def dictUpdate (d other : Dict α) : Dict α :=
  other.foldl (fun acc p => dictSet acc p.1 p.2) d

/-- Python truthiness of a `PyVal` (`None`, `False`, `0`, `""`, `[]` and
`{}` are falsy). -/
def pyTruthy : PyVal → Bool
  | .none => false
  | .bool b => b
  | .int n => n != 0
  | .str s => !s.isEmpty
  | .list xs => !xs.isEmpty
  | .dict d => !d.isEmpty

/-! ## ChannelGrouper: `CharmProject._group_channels` -/

/-- The track of a channel string: `channel.split('/', 1)[0]` when the
channel contains a `/`, otherwise the channel itself
(`charm_project.py:516-520`). -/
def trackOf (channel : String) : String :=
  if channel.data.contains '/' then
    String.mk (channel.data.takeWhile (fun c => c ≠ '/'))
  else channel

/-- One iteration of the loop in `_group_channels`: append the channel to
its track group if the track was seen, else start a new group at the end
(the `try/except KeyError` on the `OrderedDict`). -/
def groupChannelsStep (groups : List (String × List String)) (channel : String) :
    List (String × List String) :=
  let group := trackOf channel
  if groups.any (fun p => p.1 == group) then
    groups.map (fun p => if p.1 == group then (p.1, p.2 ++ [channel]) else p)
  else
    groups ++ [(group, [channel])]

/-- `CharmProject._group_channels` (`charm_project.py:501-525`): group a
list of channels by track, preserving input order within a group and
first-seen order of the groups. -/
def _group_channels (channels : List String) : List (String × List String) :=
  channels.foldl groupChannelsStep []

/-- First-occurrence deduplication, keeping first-seen order. -/
def dedupKeepFirst : List String → List String
  | [] => []
  | t :: ts => t :: (dedupKeepFirst ts).filter (fun x => x ≠ t)

/-- Specification-level regrouping: one group per distinct track in
first-seen order, each holding exactly the input channels of that track in
input order. -/
def groupChannelsSpec (channels : List String) : List (String × List String) :=
  (dedupKeepFirst (channels.map trackOf)).map
    (fun t => (t, channels.filter (fun c => trackOf c == t)))

theorem mem_dedupKeepFirst {a : String} : ∀ {xs : List String},
    a ∈ dedupKeepFirst xs ↔ a ∈ xs := by
  intro xs
  induction xs with
  | nil => simp [dedupKeepFirst]
  | cons x xs ih =>
    by_cases hax : a = x
    · subst hax; simp [dedupKeepFirst]
    · simp [dedupKeepFirst, hax, List.mem_filter, ih]

theorem dedupKeepFirst_append_singleton (x : String) : ∀ (xs : List String),
    dedupKeepFirst (xs ++ [x]) =
      if x ∈ xs then dedupKeepFirst xs else dedupKeepFirst xs ++ [x] := by
  intro xs
  induction xs with
  | nil => simp [dedupKeepFirst]
  | cons y ys ih =>
    show y :: (dedupKeepFirst (ys ++ [x])).filter (fun z => z ≠ y)
        = if x ∈ y :: ys then dedupKeepFirst (y :: ys)
          else dedupKeepFirst (y :: ys) ++ [x]
    rw [ih]
    by_cases hx : x ∈ ys
    · rw [if_pos hx, if_pos (List.mem_cons_of_mem y hx)]
      rfl
    · rw [if_neg hx, List.filter_append]
      by_cases hxy : x = y
      · subst hxy
        rw [if_pos (List.mem_cons_self x ys)]
        simp [dedupKeepFirst]
      · have hnx : x ∉ y :: ys := by
          simp [List.mem_cons, hxy, hx]
        rw [if_neg hnx]
        simp [dedupKeepFirst, hxy]

theorem groupChannelsStep_spec (pre : List String) (c : String) :
    groupChannelsStep (groupChannelsSpec pre) c = groupChannelsSpec (pre ++ [c]) := by
  by_cases hg : trackOf c ∈ pre.map trackOf
  · have hany : (groupChannelsSpec pre).any (fun p => p.1 == trackOf c) = true := by
      rw [List.any_eq_true]
      refine ⟨(trackOf c, pre.filter (fun c' => trackOf c' == trackOf c)), ?_, by simp⟩
      exact List.mem_map_of_mem _ (mem_dedupKeepFirst.mpr hg)
    simp only [groupChannelsStep, hany, if_true]
    rw [groupChannelsSpec, List.map_map]
    rw [groupChannelsSpec]
    simp only [List.map_append, List.map_cons, List.map_nil]
    rw [dedupKeepFirst_append_singleton, if_pos hg]
    refine List.map_congr_left (fun t _ => ?_)
    simp only [Function.comp_apply]
    by_cases ht : t = trackOf c
    · subst ht
      simp [List.filter_append]
    · have h1 : (t == trackOf c) = false := by simp [ht]
      have h2 : (trackOf c == t) = false := by
        simp only [beq_eq_false_iff_ne, ne_eq]
        exact fun h => ht h.symm
      simp [h1, h2, List.filter_append]
  · have hany : (groupChannelsSpec pre).any (fun p => p.1 == trackOf c) = false := by
      rw [List.any_eq_false]
      rintro ⟨t, cs⟩ hmem
      rw [groupChannelsSpec] at hmem
      obtain ⟨t', ht', heq⟩ := List.mem_map.mp hmem
      cases heq
      simp only [beq_iff_eq]
      intro h
      exact hg (h ▸ mem_dedupKeepFirst.mp ht')
    simp only [groupChannelsStep, hany, Bool.false_eq_true, if_false]
    rw [groupChannelsSpec, groupChannelsSpec]
    simp only [List.map_append, List.map_cons, List.map_nil]
    rw [dedupKeepFirst_append_singleton, if_neg hg, List.map_append]
    have hlast : List.filter (fun c' => trackOf c' == trackOf c) (pre ++ [c])
        = [c] := by
      rw [List.filter_append]
      have h1 : List.filter (fun c' => trackOf c' == trackOf c) pre = [] := by
        rw [List.filter_eq_nil_iff]
        intro a ha h
        exact hg ((beq_iff_eq.mp h) ▸ List.mem_map_of_mem trackOf ha)
      rw [h1]
      simp
    have hmain : List.map (fun t => (t, List.filter (fun c' => trackOf c' == t) (pre ++ [c])))
          (dedupKeepFirst (pre.map trackOf))
        = List.map (fun t => (t, List.filter (fun c' => trackOf c' == t) pre))
          (dedupKeepFirst (pre.map trackOf)) := by
      refine List.map_congr_left (fun t htmem => ?_)
      have ht : trackOf c ≠ t := by
        intro h
        exact hg (h ▸ mem_dedupKeepFirst.mp htmem)
      have h2 : (trackOf c == t) = false := by simp [ht]
      simp [List.filter_append, h2]
    simp only [List.map_cons, List.map_nil, hmain, hlast]

/-- Claim C6: `_group_channels` groups each channel under the track that is
the substring before its first `/` (the whole string when there is no `/`),
appends channels to their group in input order, lists the groups in
first-seen track order, and maps the empty input to the empty list.  This
is stated as equality with the specification-level regrouping
`groupChannelsSpec`, whose groups are exactly the distinct tracks in
first-seen order, each paired with the input channels of that track in
input order (so `groupChannelsSpec [] = []` definitionally). -/
theorem group_channels_spec_correct (channels : List String) :
    _group_channels channels = groupChannelsSpec channels := by
  induction channels using List.reverseRecOn with
  | nil => rfl
  | append_singleton pre c ih =>
    rw [_group_channels, List.foldl_append]
    show groupChannelsStep (_group_channels pre) c = _
    rw [ih, groupChannelsStep_spec]

/-! ## Association-list (Python dict) lemmas -/

theorem dictMem_iff_isSome {d : Dict α} {k : String} :
    dictMem d k = true ↔ (dictGet? d k).isSome = true := by
  induction d with
  | nil => simp [dictMem, dictGet?]
  | cons p ps ih =>
    by_cases hk : p.1 == k
    · simp [dictMem, dictGet?, hk]
    · simp only [dictMem, dictGet?, hk, Bool.false_or, if_neg]
      simpa using ih

theorem dictGet?_append (d e : Dict α) (k : String) :
    dictGet? (d ++ e) k = ((dictGet? d k).orElse (fun _ => dictGet? e k)) := by
  induction d with
  | nil => simp [dictGet?]
  | cons p ps ih =>
    by_cases hk : p.1 == k
    · simp [dictGet?, hk]
    · simp [dictGet?, hk, ih]


theorem dictGet?_dictSet_self (d : Dict α) (k : String) (v : α) :
    dictGet? (dictSet d k v) k = some v := by
  induction d with
  | nil => simp [dictSet, dictGet?]
  | cons p ps ih =>
    by_cases hk : p.1 == k
    · simp [dictSet, dictGet?, hk]
    · simp [dictSet, dictGet?, hk, ih]

theorem dictGet?_dictSet_ne (d : Dict α) (k r : String) (v : α) (h : r ≠ k) :
    dictGet? (dictSet d k v) r = dictGet? d r := by
  have h1 : (k == r) = false := by
    simp only [beq_eq_false_iff_ne, ne_eq]
    exact fun hh => h hh.symm
  induction d with
  | nil => simp [dictSet, dictGet?, h1]
  | cons p ps ih =>
    by_cases hk : p.1 == k
    · have hpk : p.1 = k := by simpa using hk
      have h2 : (p.1 == r) = false := by
        rw [hpk]
        exact h1
      simp [dictSet, dictGet?, hk, h1, h2]
    · simp [dictSet, dictGet?, hk, ih]

theorem dictMem_dictSet_of_mem (d : Dict α) (k r : String) (v : α)
    (h : dictMem d r = true) : dictMem (dictSet d k v) r = true := by
  induction d with
  | nil => simp [dictMem] at h
  | cons p ps ih =>
    by_cases hk : p.1 == k
    · have hpk : p.1 = k := by simpa using hk
      rcases (by simpa [dictMem] using h : p.1 = r ∨ dictMem ps r = true) with h' | h'
      · rw [← hpk] at *
        simp [dictSet, dictMem, hk, h']
      · simp [dictSet, dictMem, hk, h', Bool.or_true]
    · rcases (by simpa [dictMem] using h : p.1 = r ∨ dictMem ps r = true) with h' | h'
      · have hrk : ¬ r = k := by
          intro hc
          rw [h'] at hk
          exact hk (by simp [hc])
        simp [dictSet, dictMem, hk, h', hrk]
      · simp [dictSet, dictMem, hk, ih h', Bool.or_true]

theorem dictGet?_append_singleton_ne (d : Dict α) (k r : String) (v : α)
    (h : r ≠ k) : dictGet? (d ++ [(k, v)]) r = dictGet? d r := by
  rw [dictGet?_append]
  have h1 : (k == r) = false := by
    simp only [beq_eq_false_iff_ne, ne_eq]
    exact fun hh => h hh.symm
  cases hd : dictGet? d r <;> simp [dictGet?, h1, hd]

theorem dictMem_append (d e : Dict α) (r : String) :
    dictMem (d ++ e) r = (dictMem d r || dictMem e r) := by
  induction d with
  | nil => simp [dictMem]
  | cons p ps ih => simp [dictMem, ih, Bool.or_assoc]

theorem string_append_left_cancel {s t₁ t₂ : String} (h : s ++ t₁ = s ++ t₂) :
    t₁ = t₂ := by
  have h' := congrArg String.data h
  simp only [String.data_append] at h'
  exact String.ext (List.append_cancel_left h')

/-! ## CharmProject: configuration data model -/

/-- Python exceptions raised by the embedded code. -/
inductive PyError : Type where
  | valueError (msg : String)
  | typeError (msg : String)
  | keyError (msg : String)
  | attributeError (msg : String)
  | assertionError (msg : String)
deriving DecidableEq, Repr

/-- The per-branch defaults of `CharmProject._add_branches`
(`charm_project.py:123-127`). -/
def default_branch_info : Dict PyVal :=
  [("auto-build", PyVal.bool true),
   ("upload", PyVal.bool true),
   ("recipe-name", PyVal.str "{project}.{branch}.{track}")]

/-- One iteration of the loop in `CharmProject._add_branches`
(`charm_project.py:128-136`): insert the defaults for a branch ref not yet
present, then raise `ValueError` for a non-dict branch value (note that the
defaults entry was already inserted at that point), else update the entry
with the given branch info. -/
def addBranchesStep (branches : Dict (Dict PyVal)) (branch : String)
    (branch_info : PyVal) : Dict (Dict PyVal) × Option PyError :=
  let ref := "refs/heads/" ++ branch
  let branches' := if dictMem branches ref then branches
                   else branches ++ [(ref, default_branch_info)]
  match branch_info with
  | PyVal.dict info =>
      (dictSet branches' ref (dictUpdate ((dictGet? branches' ref).getD []) info),
        Option.none)
  | _ => (branches', some (PyError.valueError "Expected a dict for key branches"))

/-- `CharmProject._add_branches` (`charm_project.py:122-136`): process the
branch-spec items in order; a raised `ValueError` stops the loop, but the
mutations already made to `self.branches` persist (so the possibly-mutated
map is returned next to the error). -/
def _add_branches (branches : Dict (Dict PyVal)) :
    List (String × PyVal) → Dict (Dict PyVal) × Option PyError
  | [] => (branches, Option.none)
  | (b, info) :: rest =>
    match addBranchesStep branches b info with
    | (bs, Option.none) => _add_branches bs rest
    | (bs, some e) => (bs, some e)

/-- The `CharmProject` fields read from the YAML project config
(`charm_project.py:107-120`); `config.get` of an absent key yields `None`. -/
structure CharmProject where
  name : PyVal
  team : PyVal
  charmhub_name : PyVal
  launchpad_project : PyVal
  repository : PyVal
  branches : Dict (Dict PyVal)

/-- Python `config.get('branches', {}).items()`: iterating a non-dict value
raises `AttributeError` inside `_add_branches`. -/
def branchesSpecOf (config : Dict PyVal) : Except PyError (List (String × PyVal)) :=
  match (dictGet? config "branches").getD (PyVal.dict []) with
  | PyVal.dict d => Except.ok d
  | _ => Except.error (PyError.attributeError "branches value is not a dict")

/-- `CharmProject.__init__` (`charm_project.py:107-120`): read the scalar
fields with `config.get` and load the branch specs into an empty branch
map; on a branch-spec error, the fields and the partially-built branch map
are those already assigned when the error was raised. -/
def CharmProject.init (config : Dict PyVal) : CharmProject × Option PyError :=
  let base : CharmProject :=
    { name := (dictGet? config "name").getD PyVal.none
      team := (dictGet? config "team").getD PyVal.none
      charmhub_name := (dictGet? config "charmhub").getD PyVal.none
      launchpad_project := (dictGet? config "launchpad").getD PyVal.none
      repository := (dictGet? config "repository").getD PyVal.none
      branches := [] }
  match branchesSpecOf config with
  | Except.error e => (base, some e)
  | Except.ok spec =>
    let r := _add_branches [] spec
    ({ base with branches := r.1 }, r.2)

/-- `CharmProject.merge` (`charm_project.py:138-146`): overwrite each scalar
field when its key is present in the new config, keep the old value
otherwise, then `_add_branches` the new branch specs into the existing
branch map. -/
def CharmProject.merge (p : CharmProject) (config : Dict PyVal) :
    CharmProject × Option PyError :=
  let p' : CharmProject :=
    { name := (dictGet? config "name").getD p.name
      team := (dictGet? config "team").getD p.team
      charmhub_name := (dictGet? config "charmhub").getD p.charmhub_name
      launchpad_project := (dictGet? config "launchpad").getD p.launchpad_project
      repository := (dictGet? config "repository").getD p.repository
      branches := p.branches }
  match branchesSpecOf config with
  | Except.error e => (p', some e)
  | Except.ok spec =>
    let r := _add_branches p.branches spec
    ({ p' with branches := r.1 }, r.2)

theorem addBranchesStep_dict (B : Dict (Dict PyVal)) (b : String)
    (info : Dict PyVal) :
    ∃ B₁, addBranchesStep B b (PyVal.dict info) = (B₁, Option.none) ∧
      dictGet? B₁ ("refs/heads/" ++ b)
        = some (dictUpdate
            ((dictGet? B ("refs/heads/" ++ b)).getD default_branch_info) info) ∧
      (∀ r, r ≠ "refs/heads/" ++ b → dictGet? B₁ r = dictGet? B r) ∧
      (∀ r, dictMem B r = true → dictMem B₁ r = true) := by
  refine ⟨(addBranchesStep B b (PyVal.dict info)).1, ?_, ?_, ?_, ?_⟩
  · rfl
  · show dictGet? (dictSet _ _ _) _ = _
    rw [dictGet?_dictSet_self]
    by_cases hmem : dictMem B ("refs/heads/" ++ b)
    · rcases Option.isSome_iff_exists.mp (dictMem_iff_isSome.mp hmem) with ⟨old, hold⟩
      rw [if_pos hmem, hold]
      rfl
    · have hnone : dictGet? B ("refs/heads/" ++ b) = Option.none := by
        cases h : dictGet? B ("refs/heads/" ++ b) with
        | none => rfl
        | some v' => exact absurd (dictMem_iff_isSome.mpr (by simp [h])) hmem
      rw [if_neg hmem, dictGet?_append, hnone]
      simp [dictGet?]
  · intro r hr
    show dictGet? (dictSet _ _ _) _ = _
    rw [dictGet?_dictSet_ne _ _ _ _ hr]
    by_cases hmem : dictMem B ("refs/heads/" ++ b)
    · rw [if_pos hmem]
    · rw [if_neg hmem, dictGet?_append_singleton_ne _ _ _ _ hr]
  · intro r hr
    refine dictMem_dictSet_of_mem _ _ _ _ ?_
    by_cases hmem : dictMem B ("refs/heads/" ++ b)
    · rw [if_pos hmem]; exact hr
    · rw [if_neg hmem, dictMem_append, hr, Bool.true_or]

/-- Characterization of `_add_branches` when every branch value is a dict
and the branch names are distinct: no error is raised, each mentioned ref
ends at its old entry (or the defaults, for a fresh ref) updated with the
new info, every other ref is untouched, and no key is ever removed. -/
theorem add_branches_spec :
    ∀ (spec : List (String × PyVal)) (B : Dict (Dict PyVal)),
    (∀ q ∈ spec, ∃ d, q.2 = PyVal.dict d) →
    (spec.map Prod.fst).Nodup →
    (_add_branches B spec).2 = Option.none ∧
    (∀ b info, (b, PyVal.dict info) ∈ spec →
      dictGet? (_add_branches B spec).1 ("refs/heads/" ++ b)
        = some (dictUpdate
            ((dictGet? B ("refs/heads/" ++ b)).getD default_branch_info) info)) ∧
    (∀ r, (∀ b ∈ spec.map Prod.fst, "refs/heads/" ++ b ≠ r) →
      dictGet? (_add_branches B spec).1 r = dictGet? B r) ∧
    (∀ r, dictMem B r = true → dictMem (_add_branches B spec).1 r = true) := by
  intro spec
  induction spec with
  | nil =>
    intro B _ _
    exact ⟨rfl, by simp, fun r _ => rfl, fun r h => h⟩
  | cons q rest ih =>
    intro B hdicts hnodup
    obtain ⟨b₀, v₀⟩ := q
    obtain ⟨d₀, hd₀⟩ := hdicts (b₀, v₀) (List.mem_cons_self _ _)
    simp only at hd₀
    subst hd₀
    obtain ⟨B₁, hstep, hself, hne, hmm⟩ := addBranchesStep_dict B b₀ d₀
    have hnodup' : (rest.map Prod.fst).Nodup := (List.nodup_cons.mp hnodup).2
    have hb₀rest : b₀ ∉ rest.map Prod.fst := (List.nodup_cons.mp hnodup).1
    have hdicts' : ∀ q ∈ rest, ∃ d, q.2 = PyVal.dict d :=
      fun q hq => hdicts q (List.mem_cons_of_mem _ hq)
    obtain ⟨ihe, ihlook, ihuntouched, ihmem⟩ := ih B₁ hdicts' hnodup'
    have hred : _add_branches B ((b₀, PyVal.dict d₀) :: rest) = _add_branches B₁ rest := by
      rw [_add_branches, hstep]
    refine ⟨by rw [hred]; exact ihe, ?_, ?_, ?_⟩
    · intro b info hbmem
      rw [hred]
      rcases List.mem_cons.mp hbmem with heq | htail
      · have hb : b = b₀ := congrArg Prod.fst heq
        have hv : PyVal.dict info = PyVal.dict d₀ := congrArg Prod.snd heq
        have hinfo : info = d₀ := by injection hv
        subst hb
        subst hinfo
        have huntouched₀ : ∀ b' ∈ rest.map Prod.fst,
            "refs/heads/" ++ b' ≠ "refs/heads/" ++ b := by
          intro b' hb' hc
          exact hb₀rest ((string_append_left_cancel hc) ▸ hb')
        rw [ihuntouched _ huntouched₀]
        exact hself
      · have hb : b ∈ rest.map Prod.fst :=
          List.mem_map_of_mem Prod.fst htail
        have hbne : b ≠ b₀ := fun hc => hb₀rest (hc ▸ hb)
        rw [ihlook b info htail, hne ("refs/heads/" ++ b)
          (fun hc => hbne (string_append_left_cancel hc))]
    · intro r hr
      rw [hred, ihuntouched r (fun b hb => hr b (List.mem_cons_of_mem _ hb))]
      exact hne r (fun hc => hr b₀ (by simp) hc.symm)
    · intro r hr
      rw [hred]
      exact ihmem r (hmm r hr)

/-- Claim C7: merging a second declaration of a project overwrites exactly
the scalar fields present in the new config (each scalar field of the
result is the new value when the key is present, the old value otherwise),
unions the branch maps (a branch ref not previously present ends at the
defaults updated with the new info; a previously present ref ends at its
old entry shallow-merged field-by-field with the new info; refs not
mentioned by the new config are unchanged), and never deletes a branch
entry.  Hypotheses: the new branch spec is well formed (each value a dict,
names distinct), which is exactly the error-free case. -/
theorem merge_spec_correct (p : CharmProject) (config : Dict PyVal)
    (spec : List (String × PyVal))
    (hspec : branchesSpecOf config = Except.ok spec)
    (hdicts : ∀ q ∈ spec, ∃ d, q.2 = PyVal.dict d)
    (hnodup : (spec.map Prod.fst).Nodup) :
    ((p.merge config).2 = Option.none) ∧
    ((p.merge config).1.name = (dictGet? config "name").getD p.name) ∧
    ((p.merge config).1.team = (dictGet? config "team").getD p.team) ∧
    ((p.merge config).1.charmhub_name
      = (dictGet? config "charmhub").getD p.charmhub_name) ∧
    ((p.merge config).1.launchpad_project
      = (dictGet? config "launchpad").getD p.launchpad_project) ∧
    ((p.merge config).1.repository
      = (dictGet? config "repository").getD p.repository) ∧
    (∀ b info, (b, PyVal.dict info) ∈ spec →
      dictGet? (p.merge config).1.branches ("refs/heads/" ++ b)
        = some (dictUpdate
            ((dictGet? p.branches ("refs/heads/" ++ b)).getD default_branch_info)
            info)) ∧
    (∀ r, (∀ b ∈ spec.map Prod.fst, "refs/heads/" ++ b ≠ r) →
      dictGet? (p.merge config).1.branches r = dictGet? p.branches r) ∧
    (∀ r, dictMem p.branches r = true →
      dictMem (p.merge config).1.branches r = true) := by
  obtain ⟨he, hlook, huntouched, hmem⟩ := add_branches_spec spec p.branches hdicts hnodup
  have hm : p.merge config
      = ({ name := (dictGet? config "name").getD p.name
           team := (dictGet? config "team").getD p.team
           charmhub_name := (dictGet? config "charmhub").getD p.charmhub_name
           launchpad_project := (dictGet? config "launchpad").getD p.launchpad_project
           repository := (dictGet? config "repository").getD p.repository
           branches := (_add_branches p.branches spec).1 },
         (_add_branches p.branches spec).2) := by
    rw [CharmProject.merge, hspec]
  rw [hm]
  exact ⟨he, rfl, rfl, rfl, rfl, rfl, hlook, huntouched, hmem⟩

/-- Witness for C7: a concrete project with only branch `main` merged with
a second declaration adding branch `stable` and overwriting the team;
the result has both branches, the overwritten team, and the untouched
repository field. -/
theorem merge_spec_correct_witness :
    (branchesSpecOf [("team", PyVal.str "new-team"),
        ("branches", PyVal.dict [("stable", PyVal.dict [("channels",
          PyVal.list [PyVal.str "latest/stable"])])])]
      = Except.ok [("stable", PyVal.dict [("channels",
          PyVal.list [PyVal.str "latest/stable"])])]) ∧
    ((CharmProject.merge
        { name := PyVal.str "P", team := PyVal.str "old-team",
          charmhub_name := PyVal.str "p", launchpad_project := PyVal.str "charm-p",
          repository := PyVal.str "https://example.test/p",
          branches := [("refs/heads/main",
            [("auto-build", PyVal.bool true), ("upload", PyVal.bool true),
             ("recipe-name", PyVal.str "{project}.{branch}.{track}"),
             ("channels", PyVal.list [PyVal.str "latest/edge"])])] }
        [("team", PyVal.str "new-team"),
         ("branches", PyVal.dict [("stable", PyVal.dict [("channels",
           PyVal.list [PyVal.str "latest/stable"])])])]).2 = Option.none) := by
  refine ⟨rfl, ?_⟩
  exact (merge_spec_correct
    { name := PyVal.str "P", team := PyVal.str "old-team",
      charmhub_name := PyVal.str "p", launchpad_project := PyVal.str "charm-p",
      repository := PyVal.str "https://example.test/p",
      branches := [("refs/heads/main",
        [("auto-build", PyVal.bool true), ("upload", PyVal.bool true),
         ("recipe-name", PyVal.str "{project}.{branch}.{track}"),
         ("channels", PyVal.list [PyVal.str "latest/edge"])])] }
    [("team", PyVal.str "new-team"),
     ("branches", PyVal.dict [("stable", PyVal.dict [("channels",
       PyVal.list [PyVal.str "latest/stable"])])])]
    [("stable", PyVal.dict [("channels", PyVal.list [PyVal.str "latest/stable"])])]
    rfl
    (by intro q hq; simp only [List.mem_singleton] at hq; exact ⟨_, by rw [hq]⟩)
    (by simp)).1

theorem addBranchesStep_not_dict (B : Dict (Dict PyVal)) (b : String)
    (v : PyVal) (hv : ∀ d, v ≠ PyVal.dict d) :
    addBranchesStep B b v
      = (if dictMem B ("refs/heads/" ++ b) then B
         else B ++ [("refs/heads/" ++ b, default_branch_info)],
         some (PyError.valueError "Expected a dict for key branches")) := by
  cases v with
  | none => rfl
  | bool a => rfl
  | int a => rfl
  | str a => rfl
  | list a => rfl
  | dict d => exact absurd rfl (hv d)

/-- How `_add_branches` fails on the first non-dict branch value: every
branch earlier in iteration order is fully merged, the offending branch ref
gets a defaults-only entry only when it was not already present (an already
present entry is left unchanged), the branches after it are never
processed, and the `ValueError` is returned alongside this mutated map. -/
theorem add_branches_not_atomic (good : List (String × PyVal)) :
    ∀ (B : Dict (Dict PyVal)) (b : String) (v : PyVal)
      (rest : List (String × PyVal)),
    (∀ q ∈ good, ∃ d, q.2 = PyVal.dict d) →
    (∀ d, v ≠ PyVal.dict d) →
    _add_branches B (good ++ (b, v) :: rest)
      = (if dictMem (_add_branches B good).1 ("refs/heads/" ++ b)
           then (_add_branches B good).1
           else (_add_branches B good).1
             ++ [("refs/heads/" ++ b, default_branch_info)],
         some (PyError.valueError "Expected a dict for key branches")) := by
  induction good with
  | nil =>
    intro B b v rest _ hv
    cases v with
    | dict d => exact absurd rfl (hv d)
    | none => rfl
    | bool a => rfl
    | int a => rfl
    | str a => rfl
    | list a => rfl
  | cons q good' ih =>
    intro B b v rest hdicts hv
    obtain ⟨b₁, v₁⟩ := q
    obtain ⟨d₁, hd₁⟩ := hdicts (b₁, v₁) (List.mem_cons_self _ _)
    simp only at hd₁
    subst hd₁
    obtain ⟨B₁, hstep, -, -, -⟩ := addBranchesStep_dict B b₁ d₁
    have h1 : ∀ (l : List (String × PyVal)),
        _add_branches B ((b₁, PyVal.dict d₁) :: l) = _add_branches B₁ l := by
      intro l
      rw [_add_branches, hstep]
    rw [List.cons_append, h1, h1]
    exact ih B₁ b v rest (fun q hq => hdicts q (List.mem_cons_of_mem _ hq)) hv

/-- Counterexample to claim C9 as stated: merging a branches mapping whose
offending branch ref (`refs/heads/main`) is already fully present in the
project raises the `ValueError` without mutating the branch map at all —
the surviving entry for that ref is the original four-field entry, not a
defaults-only entry (the defaults have three fields). -/
theorem branch_error_no_defaults_entry :
    ((CharmProject.merge
        { name := PyVal.str "P", team := PyVal.str "t",
          charmhub_name := PyVal.str "p", launchpad_project := PyVal.str "charm-p",
          repository := PyVal.str "r",
          branches := [("refs/heads/main",
            [("auto-build", PyVal.bool true), ("upload", PyVal.bool true),
             ("recipe-name", PyVal.str "{project}.{branch}.{track}"),
             ("channels", PyVal.list [PyVal.str "latest/edge"])])] }
        [("branches", PyVal.dict [("main", PyVal.str "oops")])]).2
      = some (PyError.valueError "Expected a dict for key branches")) ∧
    ((CharmProject.merge
        { name := PyVal.str "P", team := PyVal.str "t",
          charmhub_name := PyVal.str "p", launchpad_project := PyVal.str "charm-p",
          repository := PyVal.str "r",
          branches := [("refs/heads/main",
            [("auto-build", PyVal.bool true), ("upload", PyVal.bool true),
             ("recipe-name", PyVal.str "{project}.{branch}.{track}"),
             ("channels", PyVal.list [PyVal.str "latest/edge"])])] }
        [("branches", PyVal.dict [("main", PyVal.str "oops")])]).1.branches
      = [("refs/heads/main",
          [("auto-build", PyVal.bool true), ("upload", PyVal.bool true),
           ("recipe-name", PyVal.str "{project}.{branch}.{track}"),
           ("channels", PyVal.list [PyVal.str "latest/edge"])])]) ∧
    ((dictGet? (CharmProject.merge
        { name := PyVal.str "P", team := PyVal.str "t",
          charmhub_name := PyVal.str "p", launchpad_project := PyVal.str "charm-p",
          repository := PyVal.str "r",
          branches := [("refs/heads/main",
            [("auto-build", PyVal.bool true), ("upload", PyVal.bool true),
             ("recipe-name", PyVal.str "{project}.{branch}.{track}"),
             ("channels", PyVal.list [PyVal.str "latest/edge"])])] }
        [("branches", PyVal.dict [("main", PyVal.str "oops")])]).1.branches
        "refs/heads/main").map List.length = some 4) ∧
    (default_branch_info.length = 3) :=
  ⟨rfl, rfl, rfl, rfl⟩

/-- Claim C9 (amended): when a branches mapping contains a branch whose
value is not a mapping, constructing or merging a project raises the
rejection error only after the branches earlier in iteration order have
been fully merged, and after a defaults-only entry has been inserted for
the offending branch ref when that ref was not already present (an
already-present entry is left unchanged); branches after the offending one
are never processed — branch loading is not atomic on error. -/
theorem branch_loading_error_mutation (config : Dict PyVal)
    (good rest : List (String × PyVal)) (b : String) (v : PyVal)
    (p : CharmProject)
    (hspec : branchesSpecOf config = Except.ok (good ++ (b, v) :: rest))
    (hdicts : ∀ q ∈ good, ∃ d, q.2 = PyVal.dict d)
    (hv : ∀ d, v ≠ PyVal.dict d) :
    ((CharmProject.init config).2
        = some (PyError.valueError "Expected a dict for key branches") ∧
      (CharmProject.init config).1.branches
        = (if dictMem (_add_branches [] good).1 ("refs/heads/" ++ b)
             then (_add_branches [] good).1
             else (_add_branches [] good).1
               ++ [("refs/heads/" ++ b, default_branch_info)])) ∧
    ((p.merge config).2
        = some (PyError.valueError "Expected a dict for key branches") ∧
      (p.merge config).1.branches
        = (if dictMem (_add_branches p.branches good).1 ("refs/heads/" ++ b)
             then (_add_branches p.branches good).1
             else (_add_branches p.branches good).1
               ++ [("refs/heads/" ++ b, default_branch_info)])) := by
  have hna_init := add_branches_not_atomic good [] b v rest hdicts hv
  have hna_merge := add_branches_not_atomic good p.branches b v rest hdicts hv
  constructor
  · rw [CharmProject.init, hspec]
    simp only [hna_init]
    exact ⟨trivial, trivial⟩
  · rw [CharmProject.merge, hspec]
    simp only [hna_merge]
    exact ⟨trivial, trivial⟩

/-- Witness for the amended C9: constructing a project whose branches are
`main` (a dict) followed by `stable` (a bare string) raises the error and
leaves behind both the merged `main` entry and a defaults-only `stable`
entry. -/
theorem branch_loading_error_mutation_witness :
    (CharmProject.init [("branches",
        PyVal.dict [("main", PyVal.dict []), ("stable", PyVal.str "oops")])]).2
      = some (PyError.valueError "Expected a dict for key branches") :=
  (branch_loading_error_mutation
    [("branches", PyVal.dict [("main", PyVal.dict []), ("stable", PyVal.str "oops")])]
    [("main", PyVal.dict [])] [] "stable" (PyVal.str "oops")
    { name := PyVal.none, team := PyVal.none, charmhub_name := PyVal.none,
      launchpad_project := PyVal.none, repository := PyVal.none, branches := [] }
    rfl
    (by
      intro q hq
      simp only [List.mem_singleton] at hq
      exact ⟨[], by rw [hq]⟩)
    (fun d h => PyVal.noConfusion h)).1.1

/-! ## GroupConfig: config loading and project registry (`main.py:814-885`) -/

theorem dictGet?_eq_none_of_not_mem {d : Dict α} {k : String}
    (h : ¬ dictMem d k = true) : dictGet? d k = Option.none := by
  cases hd : dictGet? d k with
  | none => rfl
  | some v => exact absurd (dictMem_iff_isSome.mpr (by simp [hd])) h

theorem dictGet?_setdefault_same (d : Dict α) (k : String) (v : α) :
    dictGet? (setdefault d k v) k
      = ((dictGet? d k).orElse (fun _ => some v)) := by
  rw [setdefault]
  by_cases hmem : dictMem d k
  · rw [if_pos hmem]
    rcases Option.isSome_iff_exists.mp (dictMem_iff_isSome.mp hmem) with ⟨w, hw⟩
    rw [hw]
    rfl
  · rw [if_neg hmem, dictGet?_append, dictGet?_eq_none_of_not_mem hmem]
    simp [dictGet?, Option.orElse]

theorem dictGet?_setdefault_ne (d : Dict α) (k r : String) (v : α) (h : r ≠ k) :
    dictGet? (setdefault d k v) r = dictGet? d r := by
  rw [setdefault]
  by_cases hmem : dictMem d k
  · rw [if_pos hmem]
  · rw [if_neg hmem, dictGet?_append_singleton_ne _ _ _ _ h]

/-- The defaults application of `GroupConfig.load_files` for one project
entry (`main.py:852-854`): `project.setdefault(key, value)` for every item
of the group defaults, in order — a plain, non-recursive copy for every
key, including `branches`. -/
def applyProjectDefaults (project_defaults : Dict PyVal) (project : Dict PyVal) :
    Dict PyVal :=
  project_defaults.foldl (fun proj kv => setdefault proj kv.1 kv.2) project

/-- Counterexample to claim C3 as stated: the `branches` key is not
deep-merged.  The defaults declare branch `main`, the project entry
declares only branch `stable`; after defaults application the entry's
branches are exactly its own `stable` branch — the defaults' `main` branch
is dropped entirely (a deep merge would have kept both). -/
theorem defaults_branches_not_deep_merged :
    (applyProjectDefaults
        [("team", PyVal.str "t"),
         ("branches", PyVal.dict [("main",
            PyVal.dict [("channels", PyVal.list [PyVal.str "latest/edge"])])])]
        [("name", PyVal.str "p"),
         ("branches", PyVal.dict [("stable", PyVal.dict [])])]
      = [("name", PyVal.str "p"),
         ("branches", PyVal.dict [("stable", PyVal.dict [])]),
         ("team", PyVal.str "t")]) ∧
    (dictGet? (applyProjectDefaults
        [("team", PyVal.str "t"),
         ("branches", PyVal.dict [("main",
            PyVal.dict [("channels", PyVal.list [PyVal.str "latest/edge"])])])]
        [("name", PyVal.str "p"),
         ("branches", PyVal.dict [("stable", PyVal.dict [])])]) "branches"
      = some (PyVal.dict [("stable", PyVal.dict [])])) :=
  ⟨rfl, rfl⟩

/-- Claim C3 (amended): for every key — including `branches` — the loaded
project entry keeps its own value when the key is present, and otherwise
receives the defaults' value (first occurrence); the copy is non-recursive
(`setdefault`), so the defaults' `branches` mapping is used only when the
project entry has no `branches` key at all. -/
theorem load_defaults_setdefault (project_defaults : Dict PyVal) :
    ∀ (project : Dict PyVal) (k : String),
    dictGet? (applyProjectDefaults project_defaults project) k
      = ((dictGet? project k).orElse (fun _ => dictGet? project_defaults k)) := by
  induction project_defaults with
  | nil =>
    intro project k
    show dictGet? project k = _
    cases h : dictGet? project k <;> simp [dictGet?, Option.orElse]
  | cons d ds ih =>
    intro project k
    show dictGet? (applyProjectDefaults ds (setdefault project d.1 d.2)) k = _
    rw [ih]
    by_cases hk : k = d.1
    · subst hk
      rw [dictGet?_setdefault_same]
      have hhead : dictGet? (d :: ds) d.1 = some d.2 := by
        simp [dictGet?]
      rw [hhead]
      cases h : dictGet? project d.1 <;> simp [Option.orElse]
    · rw [dictGet?_setdefault_ne _ _ _ _ hk]
      have hhead : dictGet? (d :: ds) k = dictGet? ds k := by
        have h1 : (d.1 == k) = false := by
          simp only [beq_eq_false_iff_ne, ne_eq]
          exact fun hh => hk hh.symm
        simp [dictGet?, h1]
      rw [hhead]

/-- A Python dict keyed by `PyVal` (the registry key is
`project_config.get('name')`, which may be `None`). -/
def pyDictGet? : List (PyVal × α) → PyVal → Option α
  | [], _ => Option.none
  | p :: ps, k => if PyVal.beq p.1 k then some p.2 else pyDictGet? ps k

/-- Entry assignment for a `PyVal`-keyed dict (`d[k] = v`). -/
def pyDictSet : List (PyVal × α) → PyVal → α → List (PyVal × α)
  | [], k, v => [(k, v)]
  | p :: ps, k, v =>
    if PyVal.beq p.1 k then (k, v) :: ps else p :: pyDictSet ps k v

/-- `GroupConfig.add_charm_project` (`main.py:858-877`): look the entry up
under `project_config.get('name')`; when present, either merge in place
(`merge=True`; an in-place merge that raises still leaves the mutated
object registered) or raise `ValueError`; when absent, construct a
`CharmProject` and register it under the name — including `None` when the
config has no `name` key.  A constructor error prevents the assignment. -/
def add_charm_project (charm_projects : List (PyVal × CharmProject))
    (project_config : Dict PyVal) (merge : Bool) :
    List (PyVal × CharmProject) × Option PyError :=
  let name := (dictGet? project_config "name").getD PyVal.none
  match pyDictGet? charm_projects name with
  | some p =>
    if merge then
      let r := p.merge project_config
      (pyDictSet charm_projects name r.1, r.2)
    else
      (charm_projects, some (PyError.valueError "Project config already exists."))
  | Option.none =>
    let r := CharmProject.init project_config
    match r.2 with
    | some e => (charm_projects, some e)
    | Option.none => (charm_projects ++ [(name, r.1)], Option.none)

/-- Counterexample to claim C4 as stated: adding a project entry with no
`name` key to an empty registry raises nothing and registers the project
under the key `None` — it is not rejected with a `ConfigError`. -/
theorem missing_name_registered :
    add_charm_project [] [("charmhub", PyVal.str "x")] false
      = ([(PyVal.none,
            { name := PyVal.none, team := PyVal.none,
              charmhub_name := PyVal.str "x", launchpad_project := PyVal.none,
              repository := PyVal.none, branches := [] })], Option.none) :=
  rfl

/-- Claim C4 (amended): a project entry with no `name` key is not
rejected; provided its branch spec is well formed and no project is
registered under `None` yet, it is registered (appended) under the key
`None`, with no error, and the registered project's name is `None`. -/
theorem add_charm_project_missing_name (charm_projects : List (PyVal × CharmProject))
    (config : Dict PyVal)
    (hname : dictGet? config "name" = Option.none)
    (habsent : pyDictGet? charm_projects PyVal.none
      = (Option.none : Option CharmProject))
    (hinit : (CharmProject.init config).2 = Option.none) :
    add_charm_project charm_projects config false
      = (charm_projects ++ [(PyVal.none, (CharmProject.init config).1)],
         Option.none) ∧
    (CharmProject.init config).1.name = PyVal.none := by
  constructor
  · rw [add_charm_project]
    rw [hname]
    show (match pyDictGet? charm_projects PyVal.none with
      | some p =>
        if false then
          let r := p.merge config
          (pyDictSet charm_projects PyVal.none r.1, r.2)
        else
          (charm_projects, some (PyError.valueError "Project config already exists."))
      | Option.none =>
        let r := CharmProject.init config
        match r.2 with
        | some e => (charm_projects, some e)
        | Option.none =>
          (charm_projects ++ [(PyVal.none, r.1)], Option.none)) = _
    rw [habsent]
    show (match (CharmProject.init config).2 with
      | some e => (charm_projects, some e)
      | Option.none =>
        (charm_projects ++ [(PyVal.none, (CharmProject.init config).1)],
          Option.none)) = _
    rw [hinit]
  · rw [CharmProject.init]
    cases hb : branchesSpecOf config <;> simp [hname]

/-- Witness for the amended C4: a concrete nameless project entry is
registered under `None` in an empty registry. -/
theorem add_charm_project_missing_name_witness :
    add_charm_project [] [("charmhub", PyVal.str "x")] false
      = ([] ++ [(PyVal.none,
          (CharmProject.init [("charmhub", PyVal.str "x")]).1)], Option.none) :=
  (add_charm_project_missing_name [] [("charmhub", PyVal.str "x")]
    rfl rfl rfl).1

/-- `GroupConfig.projects` (`main.py:879-885`): yield the registered
projects in registration order; Python `not(select)` resets both `None`
and the empty list to `None` (no filter), otherwise keep the projects
whose name is in the selection. -/
def projects (charm_projects : List (PyVal × CharmProject))
    (select : Option (List String)) : List CharmProject :=
  let select := if select = some [] then Option.none else select
  (charm_projects.map Prod.snd).filter (fun p =>
    match select with
    | Option.none => true
    | some sel => sel.any (fun s => PyVal.beq p.name (PyVal.str s)))

/-- Claim C10: requesting projects with an empty selection list yields
every registered project in registration order — identical to passing no
selection, never an empty result. -/
theorem projects_empty_select (charm_projects : List (PyVal × CharmProject)) :
    projects charm_projects (some [])
      = charm_projects.map Prod.snd ∧
    projects charm_projects Option.none
      = charm_projects.map Prod.snd := by
  constructor <;> simp [projects]

/-! ## Launchpad remote recipes and the recipe diff
(`launchpadtools.py:176-209`) -/

/-- The fields of a Launchpad charm recipe that the engine reads or
writes. -/
structure LPRecipe where
  name : String
  auto_build : PyVal
  auto_build_channels : PyVal
  build_path : PyVal
  store_channels : PyVal
  store_upload : PyVal

/-- Python `getattr(recipe, rpart)` for the five diffed parts. -/
def LPRecipe.getattr (recipe : LPRecipe) : String → PyVal
  | "auto_build" => recipe.auto_build
  | "auto_build_channels" => recipe.auto_build_channels
  | "build_path" => recipe.build_path
  | "store_channels" => recipe.store_channels
  | "store_upload" => recipe.store_upload
  | _ => PyVal.none

/-- `LaunchpadTools.diff_charm_recipe` (`launchpadtools.py:176-209`):
compare the five recipe parts against the desired values, collecting the
differing parts in a dict and a list of change descriptions (the
descriptions are abbreviated to the part name here; the code embeds the
new value in the text, which is only logged).  Returns
`(changed, parts-changed, change descriptions)`. -/
def diff_charm_recipe (recipe : LPRecipe) (auto_build auto_build_channels
    build_path store_channels store_upload : PyVal) :
    Bool × Dict PyVal × List String :=
  let parts : List (String × PyVal) :=
    [("auto_build", auto_build),
     ("auto_build_channels", auto_build_channels),
     ("build_path", build_path),
     ("store_channels", store_channels),
     ("store_upload", store_upload)]
  let r := parts.foldl
    (fun (acc : Dict PyVal × List String) pq =>
      if recipe.getattr pq.1 == pq.2 then acc
      else (dictSet acc.1 pq.1 pq.2, acc.2 ++ ["recipe." ++ pq.1]))
    ([], [])
  (!r.2.isEmpty, r.1, r.2)

/-! ## ReconciliationEngine: `CharmProject._calc_recipes_for_repo`
(`charm_project.py:321-411`) -/

/-- The `build_from` payload stored with each computed recipe
(`charm_project.py:393-403`); the launchpad team/project objects are
identified by the project name already carried by the result. -/
structure RecipeBuildFrom where
  recipe_name : String
  branch_info : Dict PyVal
  lp_branch : String
  store_name : PyVal
  channels : List String

/-- One entry of the computed per-recipe map (`charm_project.py:378-403`).
The create case stores `updated_recipe: None` instead of `updated_parts`
in the code, modelled by `updated_parts = none` here. -/
structure RecipeState where
  exists_ : Bool
  changed : Bool
  current_recipe : Option LPRecipe
  updated_parts : Option (Dict PyVal)
  changes : List String
  build_from : RecipeBuildFrom

/-- The result dictionary of `_calc_recipes_for_repo`
(`charm_project.py:404-411`). -/
structure CalcResult where
  lp_recipes : List LPRecipe
  non_config_recipes : Dict LPRecipe
  in_config_recipes : List (String × RecipeState)
  no_recipe_branches : List String
  missing_branches_in_repo : List String

/-- The loop state of `_calc_recipes_for_repo`. -/
structure CalcAcc where
  charm_lp_recipe_map : Dict LPRecipe
  all_recipes : List (String × RecipeState)
  no_recipe_branches : List String
  mentioned_branches : List String

/-- The dict comprehension `{recipe.name: recipe for recipe in lp_recipes}`
(`charm_project.py:331`). -/
def recipeMapOf (lp_recipes : List LPRecipe) : Dict LPRecipe :=
  lp_recipes.foldl (fun m r => dictSet m r.name r) []

/-- Python `d.pop(k, None)`: the removed value (if any) and the remaining
dict. -/
def dictPop : Dict α → String → Option α × Dict α
  | [], _ => (Option.none, [])
  | p :: ps, k =>
    if p.1 == k then (some p.2, ps)
    else
      let r := dictPop ps k
      (r.1, p :: r.2)

/-- Replace every non-overlapping occurrence of `old` (left to right) by
`new` in a character list; the `skip` counter consumes the remainder of a
matched occurrence one character at a time, keeping the recursion
structural (and hence kernel-reducible, unlike `String.replace`). -/
def replaceAux (old new : List Char) : Nat → List Char → List Char
  | _, [] => []
  | skip + 1, _ :: cs => replaceAux old new skip cs
  | 0, c :: cs =>
    if old.isPrefixOf (c :: cs) && !old.isEmpty then
      new ++ replaceAux old new (old.length - 1) cs
    else
      c :: replaceAux old new 0 cs

/-- Python `s.replace(old, new)` (for the non-empty patterns the code
uses). -/
def pyReplace (s old new : String) : String :=
  String.mk (replaceAux old.data new.data 0 s.data)

/-- Python `str.format` on the recipe-name template, substituting the
`project`, `branch` and `track` keys (modelled as placeholder replacement;
the config templates use only these three placeholders). -/
def formatRecipeName (fmt project branch track : String) : String :=
  pyReplace (pyReplace (pyReplace fmt "{project}" project) "{branch}" branch)
    "{track}" track

/-- Python `template.format(...)` on a non-string raises
`AttributeError`. -/
def asFormatStr : PyVal → Except PyError String
  | PyVal.str s => Except.ok s
  | _ => Except.error (PyError.attributeError "value has no format method")

/-- A channels value must be a list of channel strings to be grouped
(iterating anything else is modelled as a `TypeError`). -/
def asStrList : List PyVal → Except PyError (List String)
  | [] => Except.ok []
  | PyVal.str s :: rest => (asStrList rest).map (fun ss => s :: ss)
  | _ :: _ => Except.error (PyError.typeError "channel is not a string")

/-- Coerce the `channels` value to a string list for grouping. -/
def asChannelList : PyVal → Except PyError (List String)
  | PyVal.list xs => asStrList xs
  | _ => Except.error (PyError.typeError "channels is not a list")

/-- The track grouping decision (`charm_project.py:350-358`): when `upload`
is truthy and `channels` is truthy, group the channels by track, otherwise
a single implicit `("latest", [])` group. -/
def branchTracks (branch_info : Dict PyVal) :
    Except PyError (List (String × List String)) :=
  let upload := (dictGet? branch_info "upload").getD (PyVal.bool true)
  let channels := (dictGet? branch_info "channels").getD PyVal.none
  if pyTruthy upload && pyTruthy channels then
    match asChannelList channels with
    | Except.error e => Except.error e
    | Except.ok cs => Except.ok (_group_channels cs)
  else
    Except.ok [("latest", [])]

/-- One `(track, track_channels)` iteration of the inner loop
(`charm_project.py:359-403`): format the recipe name, pop it from the
remote-recipe map, and record either a diffed existing recipe or a
to-be-created one; the entry also carries the `build_from` payload. -/
def calcTrack (branch_info : Dict PyVal) (branch_path : String)
    (charmhub_name : PyVal) (project_name fmt branch_name : String)
    (acc : CalcAcc) (tc : String × List String) : CalcAcc :=
  let recipe_name := formatRecipeName fmt project_name branch_name tc.1
  let build_from : RecipeBuildFrom :=
    { recipe_name := recipe_name, branch_info := branch_info,
      lp_branch := branch_path, store_name := charmhub_name,
      channels := tc.2 }
  let pop := dictPop acc.charm_lp_recipe_map recipe_name
  match pop.1 with
  | some lp_recipe =>
    let d := diff_charm_recipe lp_recipe
      ((dictGet? branch_info "auto-build").getD PyVal.none)
      ((dictGet? branch_info "build-channels").getD PyVal.none)
      ((dictGet? branch_info "build-path").getD PyVal.none)
      (PyVal.list (tc.2.map PyVal.str))
      ((dictGet? branch_info "upload").getD PyVal.none)
    { acc with
      charm_lp_recipe_map := pop.2,
      all_recipes := dictSet acc.all_recipes recipe_name
        { exists_ := true, changed := d.1, current_recipe := some lp_recipe,
          updated_parts := some d.2.1, changes := d.2.2,
          build_from := build_from } }
  | Option.none =>
    { acc with
      charm_lp_recipe_map := pop.2,
      all_recipes := dictSet acc.all_recipes recipe_name
        { exists_ := false, changed := false, current_recipe := Option.none,
          updated_parts := Option.none, changes := [],
          build_from := build_from } }

/-- One remote-branch iteration of the outer loop
(`charm_project.py:338-403`): record the branch as mentioned; skip it (into
`no_recipe_branches`) when no branch info is configured (Python falsiness:
absent or empty); otherwise compute the short branch name, group the
channels into tracks, and process each track. -/
def calcBranch (branches : Dict (Dict PyVal)) (project_name : String)
    (charmhub_name : PyVal) (acc : CalcAcc) (branch_path : String) :
    Except PyError CalcAcc :=
  let acc := { acc with
    mentioned_branches := acc.mentioned_branches ++ [branch_path] }
  match dictGet? branches branch_path with
  | Option.none =>
    Except.ok { acc with
      no_recipe_branches := acc.no_recipe_branches ++ [branch_path] }
  | some [] =>
    Except.ok { acc with
      no_recipe_branches := acc.no_recipe_branches ++ [branch_path] }
  | some branch_info =>
    let branch_name :=
      pyReplace (branch_path.drop "refs/heads/".length) "/" "-"
    match branchTracks branch_info with
    | Except.error e => Except.error e
    | Except.ok tracks =>
      match asFormatStr ((dictGet? branch_info "recipe-name").getD PyVal.none) with
      | Except.error e => Except.error e
      | Except.ok fmt =>
        Except.ok (tracks.foldl
          (calcTrack branch_info branch_path charmhub_name project_name fmt
            branch_name)
          acc)

/-- Ascending string sort (Python `sorted`). -/
def sortStrings (xs : List String) : List String :=
  xs.mergeSort (fun a b => a ≤ b)

/-- `CharmProject._calc_recipes_for_repo` (`charm_project.py:321-411`),
as a function of the declared branch map, the resolved project name, the
charmhub name, the remote repository's branch paths and the remote recipe
listing.  `missing_branches_in_repo` is
`list(sorted(set(self.branches.keys() - set(mentioned_branches))))`. -/
def _calc_recipes_for_repo (branches : Dict (Dict PyVal))
    (project_name : String) (charmhub_name : PyVal)
    (repo_branch_paths : List String) (lp_recipes : List LPRecipe) :
    Except PyError CalcResult :=
  let init : CalcAcc :=
    { charm_lp_recipe_map := recipeMapOf lp_recipes, all_recipes := [],
      no_recipe_branches := [], mentioned_branches := [] }
  match repo_branch_paths.foldlM
      (calcBranch branches project_name charmhub_name) init with
  | Except.error e => Except.error e
  | Except.ok acc =>
    Except.ok
      { lp_recipes := lp_recipes,
        non_config_recipes := acc.charm_lp_recipe_map,
        in_config_recipes := acc.all_recipes,
        no_recipe_branches := acc.no_recipe_branches,
        missing_branches_in_repo :=
          sortStrings (((branches.map Prod.fst).filter
            (fun r => !acc.mentioned_branches.contains r)).dedup) }

theorem mem_dictSet (d : Dict α) (k : String) (v : α) (q : String × α)
    (h : q ∈ dictSet d k v) : q ∈ d ∨ q = (k, v) := by
  induction d with
  | nil =>
    right
    simpa [dictSet] using h
  | cons p ps ih =>
    by_cases hk : p.1 == k
    · rcases (by simpa [dictSet, hk] using h : q = (k, v) ∨ q ∈ ps) with h' | h'
      · right; exact h'
      · left; exact List.mem_cons_of_mem _ h'
    · rcases (by simpa [dictSet, hk] using h : q = p ∨ q ∈ dictSet ps k v)
        with h' | h'
      · left; exact h' ▸ List.mem_cons_self _ _
      · rcases ih h' with h'' | h''
        · left; exact List.mem_cons_of_mem _ h''
        · right; exact h''

theorem calcTrack_mentioned (info : Dict PyVal) (path : String) (ch : PyVal)
    (pn fmt bn : String) (acc : CalcAcc) (tc : String × List String) :
    (calcTrack info path ch pn fmt bn acc tc).mentioned_branches
      = acc.mentioned_branches := by
  simp only [calcTrack]
  split <;> rfl

theorem calcTrack_entries (info : Dict PyVal) (path : String) (ch : PyVal)
    (pn fmt bn : String) (acc : CalcAcc) (tc : String × List String)
    (n : String) (st : RecipeState)
    (h : (n, st) ∈ (calcTrack info path ch pn fmt bn acc tc).all_recipes) :
    (n, st) ∈ acc.all_recipes ∨ st.build_from.lp_branch = path := by
  simp only [calcTrack] at h
  split at h <;>
  · rcases mem_dictSet _ _ _ _ h with h' | h'
    · left; exact h'
    · right
      have hst : st = _ := congrArg Prod.snd h'
      rw [hst]

theorem calcTracks_foldl (info : Dict PyVal) (path : String) (ch : PyVal)
    (pn fmt bn : String) :
    ∀ (tcs : List (String × List String)) (acc : CalcAcc),
    ((tcs.foldl (calcTrack info path ch pn fmt bn) acc).mentioned_branches
      = acc.mentioned_branches) ∧
    (∀ n st,
      (n, st) ∈ (tcs.foldl (calcTrack info path ch pn fmt bn) acc).all_recipes →
      (n, st) ∈ acc.all_recipes ∨ st.build_from.lp_branch = path) := by
  intro tcs
  induction tcs with
  | nil => exact fun acc => ⟨rfl, fun n st h => Or.inl h⟩
  | cons tc tcs ih =>
    intro acc
    constructor
    · rw [List.foldl_cons, (ih _).1, calcTrack_mentioned]
    · intro n st h
      rw [List.foldl_cons] at h
      rcases (ih _).2 n st h with h' | h'
      · exact calcTrack_entries info path ch pn fmt bn acc tc n st h'
      · right; exact h'

theorem calcBranch_ok (branches : Dict (Dict PyVal)) (pn : String)
    (ch : PyVal) (acc : CalcAcc) (path : String) (acc' : CalcAcc)
    (h : calcBranch branches pn ch acc path = Except.ok acc') :
    acc'.mentioned_branches = acc.mentioned_branches ++ [path] ∧
    (∀ n st, (n, st) ∈ acc'.all_recipes →
      (n, st) ∈ acc.all_recipes ∨ st.build_from.lp_branch = path) := by
  cases hg : dictGet? branches path with
  | none =>
    simp only [calcBranch, hg] at h
    cases h
    exact ⟨rfl, fun n st h' => Or.inl h'⟩
  | some branch_info =>
    cases branch_info with
    | nil =>
      simp only [calcBranch, hg] at h
      cases h
      exact ⟨rfl, fun n st h' => Or.inl h'⟩
    | cons q qs =>
      simp only [calcBranch, hg] at h
      cases htr : branchTracks (q :: qs) with
      | error e =>
        rw [htr] at h
        exact Except.noConfusion h
      | ok tracks =>
        rw [htr] at h
        cases hfmt : asFormatStr ((dictGet? (q :: qs) "recipe-name").getD PyVal.none) with
        | error e =>
          rw [hfmt] at h
          exact Except.noConfusion h
        | ok fmt =>
          rw [hfmt] at h
          cases h
          obtain ⟨hm, he⟩ := calcTracks_foldl (q :: qs) path ch pn fmt
            (pyReplace (path.drop "refs/heads/".length) "/" "-") tracks
            { acc with mentioned_branches := acc.mentioned_branches ++ [path] }
          exact ⟨hm, fun n st h' => he n st h'⟩

theorem calc_foldlM (branches : Dict (Dict PyVal)) (pn : String) (ch : PyVal) :
    ∀ (paths : List String) (acc acc' : CalcAcc),
    paths.foldlM (calcBranch branches pn ch) acc = Except.ok acc' →
    acc'.mentioned_branches = acc.mentioned_branches ++ paths ∧
    (∀ n st, (n, st) ∈ acc'.all_recipes →
      (n, st) ∈ acc.all_recipes ∨ st.build_from.lp_branch ∈ paths) := by
  intro paths
  induction paths with
  | nil =>
    intro acc acc' h
    cases h
    exact ⟨by simp, fun n st h' => Or.inl h'⟩
  | cons p ps ih =>
    intro acc acc' h
    rw [List.foldlM_cons] at h
    cases hstep : calcBranch branches pn ch acc p with
    | error e =>
      rw [hstep] at h
      exact Except.noConfusion h
    | ok a1 =>
      rw [hstep] at h
      have h' : ps.foldlM (calcBranch branches pn ch) a1 = Except.ok acc' := h
      obtain ⟨hm, he⟩ := ih a1 acc' h'
      obtain ⟨hm1, he1⟩ := calcBranch_ok branches pn ch acc p a1 hstep
      constructor
      · rw [hm, hm1, List.append_assoc, List.singleton_append]
      · intro n st hmem
        rcases he n st hmem with h2 | h2
        · rcases he1 n st h2 with h3 | h3
          · exact Or.inl h3
          · exact Or.inr (h3 ▸ List.mem_cons_self _ _)
        · exact Or.inr (List.mem_cons_of_mem _ h2)

/-- Claim C8: in every successful reconciliation, every declared branch ref
absent from the remote repository's branch listing appears in
`missing_branches_in_repo`; that list is sorted and duplicate-free; every
entry of the per-recipe map was produced from some listed remote branch;
and hence no recipe entry of any kind is produced for a branch that is not
in the listing. -/
theorem calc_recipes_missing_branches (branches : Dict (Dict PyVal))
    (project_name : String) (charmhub_name : PyVal)
    (repo_branch_paths : List String) (lp_recipes : List LPRecipe)
    (res : CalcResult)
    (h : _calc_recipes_for_repo branches project_name charmhub_name
      repo_branch_paths lp_recipes = Except.ok res) :
    (∀ ref, ref ∈ branches.map Prod.fst → ref ∉ repo_branch_paths →
      ref ∈ res.missing_branches_in_repo) ∧
    res.missing_branches_in_repo.Sorted (· ≤ ·) ∧
    res.missing_branches_in_repo.Nodup ∧
    (∀ n st, (n, st) ∈ res.in_config_recipes →
      st.build_from.lp_branch ∈ repo_branch_paths) ∧
    (∀ ref, ref ∉ repo_branch_paths → ∀ n st,
      (n, st) ∈ res.in_config_recipes → st.build_from.lp_branch ≠ ref) := by
  rw [_calc_recipes_for_repo] at h
  cases hfold : repo_branch_paths.foldlM
      (calcBranch branches project_name charmhub_name)
      { charm_lp_recipe_map := recipeMapOf lp_recipes, all_recipes := [],
        no_recipe_branches := [], mentioned_branches := [] } with
  | error e =>
    rw [hfold] at h
    exact Except.noConfusion h
  | ok acc =>
    rw [hfold] at h
    cases h
    obtain ⟨hm, he⟩ := calc_foldlM branches project_name charmhub_name
      repo_branch_paths _ acc hfold
    have hment : acc.mentioned_branches = repo_branch_paths := by
      simpa using hm
    have hperm := List.mergeSort_perm
      (((branches.map Prod.fst).filter
        (fun r => !acc.mentioned_branches.contains r)).dedup)
      (fun a b => a ≤ b)
    have hentries : ∀ n st,
        (n, st) ∈ acc.all_recipes →
        st.build_from.lp_branch ∈ repo_branch_paths := by
      intro n st hmem
      rcases he n st hmem with h' | h'
      · exact absurd h' (List.not_mem_nil _)
      · exact h'
    refine ⟨?_, ?_, ?_, ?_, ?_⟩
    · intro ref hk hnp
      show ref ∈ sortStrings _
      rw [sortStrings]
      rw [hperm.mem_iff]
      rw [List.mem_dedup, List.mem_filter]
      refine ⟨hk, ?_⟩
      rw [hment]
      simpa using hnp
    · exact List.sorted_mergeSort' _
    · show (sortStrings _).Nodup
      rw [sortStrings]
      exact hperm.nodup_iff.mpr (List.nodup_dedup _)
    · exact hentries
    · intro ref hnp n st hmem hc
      exact hnp (hc ▸ hentries n st hmem)

/-- Witness for C8: a project declaring only branch `stable/xena`, with a
remote repository listing only `main` and no remote recipes; the declared
branch appears in the missing list. -/
theorem calc_recipes_missing_branches_witness :
    "refs/heads/stable/xena"
      ∈ ({ lp_recipes := [], non_config_recipes := [],
           in_config_recipes := [], no_recipe_branches := ["refs/heads/main"],
           missing_branches_in_repo := ["refs/heads/stable/xena"] }
          : CalcResult).missing_branches_in_repo :=
  (calc_recipes_missing_branches
    [("refs/heads/stable/xena", default_branch_info)]
    "awesome" (PyVal.str "awesome") ["refs/heads/main"] []
    { lp_recipes := [], non_config_recipes := [],
      in_config_recipes := [], no_recipe_branches := ["refs/heads/main"],
      missing_branches_in_repo := ["refs/heads/stable/xena"] }
    (by
      have h1 : sortStrings ["refs/heads/stable/xena"]
          = ["refs/heads/stable/xena"] := by
        rw [sortStrings]
        exact List.mergeSort_singleton _
      rw [← h1]
      rfl)).1
    "refs/heads/stable/xena" (by simp) (by simp)

/-! ## Gateway calls, cached properties, the sync and diff flows
(`charm_project.py:148-319`, `main.py:1018-1036`) -/

/-- A remote Launchpad interaction, as recorded in a call trace. -/
inductive LPCall : Type where
  | getTeam : LPCall
  | getProject : LPCall
  | getRepo : LPCall
  | importRepo : LPCall
  | setDefaultRepo : LPCall
  | projectSave : LPCall
  | listRecipes : LPCall
  | listBranches : LPCall
  | saveRecipe (name : String) : LPCall
  | createRecipe (name : String) : LPCall
deriving DecidableEq, Repr

/-- The remote project object fields the engine reads
(`lp_project.owner`, `.name`, `.vcs`). -/
structure LPProjectInfo where
  name : String
  owner : String
  vcs : Bool

/-- The remote git-repository object fields the engine reads
(`lp_repo.target_default`, `.branches`). -/
structure LPRepoInfo where
  target_default : Bool
  branches : List String

/-- The remote state one project's reconciliation observes: `none` for the
team or project models the gateway lookup raising `KeyError`; `repo` is
what `get_git_repository` returns (possibly `None`); `imported_repo` is
what `newCodeImport` would produce; `recipes` is the
`get_charm_recipes` listing. -/
structure ProjectEnv where
  team : Option String
  project : Option LPProjectInfo
  repo : Option LPRepoInfo
  imported_repo : LPRepoInfo
  recipes : List LPRecipe

/-- The per-instance caches behind the `lp_team` / `lp_project` / `lp_repo`
properties (`charm_project.py:148-175`). -/
structure CPRun where
  lp_team : Option String
  lp_project : Option LPProjectInfo
  lp_repo : Option LPRepoInfo

/-- A fresh `CharmProject` instance state (nothing cached yet). -/
def CPRun.fresh : CPRun :=
  { lp_team := Option.none, lp_project := Option.none, lp_repo := Option.none }

/-- The `lp_team` property (`charm_project.py:148-158`): cached, else one
`get_lp_team_for` gateway call, raising `KeyError` when the team does not
exist. -/
def getTeamProp (env : ProjectEnv) (st : CPRun) :
    Except PyError String × CPRun × List LPCall :=
  match st.lp_team with
  | some t => (Except.ok t, st, [])
  | Option.none =>
    match env.team with
    | some t => (Except.ok t, { st with lp_team := some t }, [LPCall.getTeam])
    | Option.none =>
      (Except.error (PyError.keyError "team not found"), st, [LPCall.getTeam])

/-- The `lp_project` property (`charm_project.py:160-166`). -/
def getProjectProp (env : ProjectEnv) (st : CPRun) :
    Except PyError LPProjectInfo × CPRun × List LPCall :=
  match st.lp_project with
  | some p => (Except.ok p, st, [])
  | Option.none =>
    match env.project with
    | some p =>
      (Except.ok p, { st with lp_project := some p }, [LPCall.getProject])
    | Option.none =>
      (Except.error (PyError.keyError "project not found"), st, [LPCall.getProject])

/-- The `lp_repo` property (`charm_project.py:168-175`): evaluates
`lp_team` and `lp_project` first, then one `get_git_repository` call; a
`None` result is assigned to the cache slot but stays falsy, so it is not
effectively cached. -/
def getRepoProp (env : ProjectEnv) (st : CPRun) :
    Except PyError (Option LPRepoInfo) × CPRun × List LPCall :=
  match st.lp_repo with
  | some r => (Except.ok (some r), st, [])
  | Option.none =>
    match getTeamProp env st with
    | (Except.error e, st', calls) => (Except.error e, st', calls)
    | (Except.ok _, st', calls) =>
      match getProjectProp env st' with
      | (Except.error e, st'', calls') => (Except.error e, st'', calls ++ calls')
      | (Except.ok _, st'', calls') =>
        (Except.ok env.repo, { st'' with lp_repo := env.repo },
          calls ++ calls' ++ [LPCall.getRepo])

/-- The tail of `ensure_git_repository` after a repository is in hand
(`charm_project.py:208-229`): set the default repository when it is not
the default (failures are swallowed), set the project vcs to Git when
unset, return the repository. -/
def ensureGitRepoPost (proj : LPProjectInfo) (repo : LPRepoInfo)
    (st : CPRun) (calls : List LPCall) :
    Except PyError LPRepoInfo × CPRun × List LPCall :=
  let calls := if !repo.target_default then calls ++ [LPCall.setDefaultRepo]
               else calls
  let calls := if !proj.vcs then calls ++ [LPCall.projectSave] else calls
  (Except.ok repo, st, calls)

/-- `CharmProject.ensure_git_repository` (`charm_project.py:177-229`):
resolve the project and team; when the project owner differs from the
team, raise `ValueError` — before the repository property is ever touched;
otherwise resolve (or import) the repository and finish with the default
repository / vcs fix-ups. -/
def ensure_git_repository (env : ProjectEnv) (st : CPRun) :
    Except PyError LPRepoInfo × CPRun × List LPCall :=
  match getProjectProp env st with
  | (Except.error e, st₁, c₁) => (Except.error e, st₁, c₁)
  | (Except.ok proj, st₁, c₁) =>
    match getTeamProp env st₁ with
    | (Except.error e, st₂, c₂) => (Except.error e, st₂, c₁ ++ c₂)
    | (Except.ok team, st₂, c₂) =>
      if proj.owner ≠ team then
        (Except.error (PyError.valueError "Unexpected project owner"),
          st₂, c₁ ++ c₂)
      else
        match getRepoProp env st₂ with
        | (Except.error e, st₃, c₃) => (Except.error e, st₃, c₁ ++ c₂ ++ c₃)
        | (Except.ok Option.none, st₃, c₃) =>
          let repo := env.imported_repo
          ensureGitRepoPost proj repo { st₃ with lp_repo := some repo }
            (c₁ ++ c₂ ++ c₃ ++ [LPCall.importRepo])
        | (Except.ok (some repo), st₃, c₃) =>
          ensureGitRepoPost proj repo st₃ (c₁ ++ c₂ ++ c₃)

/-- The effectful wrapper of `_calc_recipes_for_repo`
(`charm_project.py:330-338`): fetch the recipe listing for
`(lp_team, lp_project)`, then read `lp_repo.branches` (an `AttributeError`
when there is no repository), and run the pure recipe calculation. -/
def calcRecipesWrapped (cp : CharmProject) (env : ProjectEnv) (st : CPRun) :
    Except PyError CalcResult × CPRun × List LPCall :=
  match getTeamProp env st with
  | (Except.error e, st₁, c₁) => (Except.error e, st₁, c₁)
  | (Except.ok _, st₁, c₁) =>
    match getProjectProp env st₁ with
    | (Except.error e, st₂, c₂) => (Except.error e, st₂, c₁ ++ c₂)
    | (Except.ok proj, st₂, c₂) =>
      let calls := c₁ ++ c₂ ++ [LPCall.listRecipes]
      match getRepoProp env st₂ with
      | (Except.error e, st₃, c₃) => (Except.error e, st₃, calls ++ c₃)
      | (Except.ok Option.none, st₃, c₃) =>
        (Except.error (PyError.attributeError "NoneType has no branches"),
          st₃, calls ++ c₃)
      | (Except.ok (some repo), st₃, c₃) =>
        let calls := calls ++ c₃ ++ [LPCall.listBranches]
        match _calc_recipes_for_repo cp.branches proj.name cp.charmhub_name
            repo.branches env.recipes with
        | Except.error e => (Except.error e, st₃, calls)
        | Except.ok res => (Except.ok res, st₃, calls)

/-- The apply phase of `ensure_charm_recipes`
(`charm_project.py:279-319` and identically `main.py:298-332`): the gate
`any_changes = all(not(r['exists']) or r['changed'] for r in ...)` (an
`all`, despite its name) returns early when false; otherwise the loop
`for recipe_name, state in current['in_config_recipes']:` iterates the
dict itself — not `.items()` — so it iterates the recipe-name keys and
tuple-unpacks each key string: a `ValueError` (wrong-size unpack) for a
key whose length is not 2, and otherwise a `TypeError` at
`state['exists']` (string indexed by a string).  Only an empty map gets
through the loop, performing no gateway call. -/
def ensureCharmRecipesApply (in_config_recipes : List (String × RecipeState)) :
    Except PyError (List LPCall) :=
  let any_changes := in_config_recipes.all (fun p => !p.2.exists_ || p.2.changed)
  if !any_changes then Except.ok []
  else
    match in_config_recipes with
    | [] => Except.ok []
    | (recipe_name, _) :: _ =>
      if recipe_name.length = 2 then
        Except.error (PyError.typeError "string indices must be integers")
      else
        Except.error (PyError.valueError "unpack mismatch iterating dict keys")

/-- `CharmProject.ensure_charm_recipes` (`charm_project.py:251-319`): the
`lp_project` access whose `KeyError` is only logged (execution continues),
the `lp_repo` access whose guard catches a `ValueError` that can never be
raised (a `KeyError` from it propagates), the recipe calculation, and the
apply phase. -/
def ensure_charm_recipes (cp : CharmProject) (env : ProjectEnv) (st : CPRun) :
    Except PyError Unit × CPRun × List LPCall :=
  match getProjectProp env st with
  | (_, st₁, c₁) =>
    match getRepoProp env st₁ with
    | (Except.error e, st₂, c₂) => (Except.error e, st₂, c₁ ++ c₂)
    | (Except.ok _, st₂, c₂) =>
      match calcRecipesWrapped cp env st₂ with
      | (Except.error e, st₃, c₃) => (Except.error e, st₃, c₁ ++ c₂ ++ c₃)
      | (Except.ok current, st₃, c₃) =>
        match ensureCharmRecipesApply current.in_config_recipes with
        | Except.error e => (Except.error e, st₃, c₁ ++ c₂ ++ c₃)
        | Except.ok applyCalls =>
          (Except.ok (), st₃, c₁ ++ c₂ ++ c₃ ++ applyCalls)

/-- The per-project body of the `sync` loop (`main.py:1034-1036`):
`ensure_git_repository()` then `ensure_charm_recipes()` on the same
instance (property caches persist between the two); an exception
propagates. -/
def syncProject (cp : CharmProject) (env : ProjectEnv) :
    Except PyError Unit × List LPCall :=
  match ensure_git_repository env CPRun.fresh with
  | (Except.error e, _, calls) => (Except.error e, calls)
  | (Except.ok _, st₁, calls) =>
    match ensure_charm_recipes cp env st₁ with
    | (r, _, calls') => (r, calls ++ calls')

/-- The `sync` loop over the selected projects (`main.py:1034-1036`). -/
def syncProjects : List (CharmProject × ProjectEnv) →
    Except PyError Unit × List LPCall
  | [] => (Except.ok (), [])
  | pe :: rest =>
    match syncProject pe.1 pe.2 with
    | (Except.error e, calls) => (Except.error e, calls)
    | (Except.ok _, calls) =>
      let r := syncProjects rest
      (r.1, calls ++ r.2)

/-- `sync_main` (`main.py:1018-1036`): without the `--i-really-mean-it`
flag (`confirmed=False`) an `AssertionError` is raised before the project
loop; otherwise every selected project is synced in turn. -/
def sync_main (confirmed : Bool)
    (selected : List (CharmProject × ProjectEnv)) :
    Except PyError Unit × List LPCall :=
  if !confirmed then
    (Except.error (PyError.assertionError
      "sync command issued, but --i-really-mean-it flag not used. Abandoning."),
     [])
  else
    syncProjects selected

/-- The computation behind `print_diff` (and `show`)
(`charm_project.py:413-466`): a missing project prints and returns, the
`except ValueError` around `lp_repo` catches nothing, and the recipe
calculation runs with no ownership validation whatsoever; printing is
omitted. -/
def print_diff_calc (cp : CharmProject) (env : ProjectEnv) :
    Except PyError (Option CalcResult) × List LPCall :=
  match getProjectProp env CPRun.fresh with
  | (Except.error _, _, c₁) => (Except.ok Option.none, c₁)
  | (Except.ok _, st₁, c₁) =>
    match getRepoProp env st₁ with
    | (Except.error e, _, c₂) => (Except.error e, c₁ ++ c₂)
    | (Except.ok _, st₂, c₂) =>
      match calcRecipesWrapped cp env st₂ with
      | (Except.error e, _, c₃) => (Except.error e, c₁ ++ c₂ ++ c₃)
      | (Except.ok info, _, c₃) => (Except.ok (some info), c₁ ++ c₂ ++ c₃)

/-- Claim C2: a sync invocation with `confirmed=False` raises the
confirmation error (an `AssertionError`; the spec names it
`SyncNotConfirmedError`) before the project loop runs, so the gateway
trace is empty — in particular zero `createRecipe`/`saveRecipe` calls and
no remote mutation, for every selection of projects. -/
theorem sync_not_confirmed_no_calls
    (selected : List (CharmProject × ProjectEnv)) :
    sync_main false selected
      = (Except.error (PyError.assertionError
          "sync command issued, but --i-really-mean-it flag not used. Abandoning."),
         []) :=
  rfl

/-- Claim C5 (amended): in the sync flow, a project whose resolved remote
owner differs from the resolved team fails with the ownership `ValueError`
(the spec's `OwnershipMismatchError`) after exactly the project and team
lookups: no repository resolution, branch listing, recipe listing or
recipe diffing happens, and `ensure_charm_recipes` never runs.  (The
read-only diff/show flow performs no ownership validation at all — see
the counterexample.) -/
theorem sync_ownership_guard (cp : CharmProject) (env : ProjectEnv)
    (proj : LPProjectInfo) (team : String)
    (hproj : env.project = some proj) (hteam : env.team = some team)
    (howner : proj.owner ≠ team) :
    syncProject cp env
      = (Except.error (PyError.valueError "Unexpected project owner"),
         [LPCall.getProject, LPCall.getTeam]) := by
  have hg : ensure_git_repository env CPRun.fresh
      = (Except.error (PyError.valueError "Unexpected project owner"),
         ({ lp_team := some team, lp_project := some proj,
            lp_repo := Option.none } : CPRun),
         [LPCall.getProject, LPCall.getTeam]) := by
    simp only [ensure_git_repository, getProjectProp, getTeamProp, CPRun.fresh,
      hproj, hteam, List.singleton_append, List.cons_append, List.nil_append]
    rw [if_pos howner]
  rw [syncProject, hg]

/-- Witness for the amended C5: a concrete project whose remote owner is
`mallory` while the team resolves to `team-a`; its sync stops at the
ownership error with only the project and team lookups in the trace. -/
theorem sync_ownership_guard_witness :
    syncProject
      { name := PyVal.str "Awesome", team := PyVal.str "team-a",
        charmhub_name := PyVal.str "awesome",
        launchpad_project := PyVal.str "charm-awesome",
        repository := PyVal.str "url", branches := [] }
      { team := some "team-a",
        project := some { name := "awesome", owner := "mallory", vcs := true },
        repo := Option.none,
        imported_repo := { target_default := true, branches := [] },
        recipes := [] }
      = (Except.error (PyError.valueError "Unexpected project owner"),
         [LPCall.getProject, LPCall.getTeam]) :=
  sync_ownership_guard
    { name := PyVal.str "Awesome", team := PyVal.str "team-a",
      charmhub_name := PyVal.str "awesome",
      launchpad_project := PyVal.str "charm-awesome",
      repository := PyVal.str "url", branches := [] }
    { team := some "team-a",
      project := some { name := "awesome", owner := "mallory", vcs := true },
      repo := Option.none,
      imported_repo := { target_default := true, branches := [] },
      recipes := [] }
    { name := "awesome", owner := "mallory", vcs := true } "team-a"
    rfl rfl (by decide)

/-- The project used to show the diff flow skips the ownership check:
one declared branch `main` publishing to `latest/edge`. -/
def diffDemoProject : CharmProject :=
  { name := PyVal.str "Awesome", team := PyVal.str "team-a",
    charmhub_name := PyVal.str "awesome",
    launchpad_project := PyVal.str "charm-awesome",
    repository := PyVal.str "url",
    branches := [("refs/heads/main",
      [("auto-build", PyVal.bool true), ("upload", PyVal.bool true),
       ("recipe-name", PyVal.str "{project}.{branch}.{track}"),
       ("channels", PyVal.list [PyVal.str "latest/edge"])])] }

/-- A remote environment whose project owner (`mallory`) differs from the
resolved team (`team-a`), with a repository and one matching recipe. -/
def diffDemoEnv : ProjectEnv :=
  { team := some "team-a",
    project := some { name := "awesome", owner := "mallory", vcs := true },
    repo := some { target_default := true, branches := ["refs/heads/main"] },
    imported_repo := { target_default := true, branches := [] },
    recipes := [{ name := "awesome.main.latest",
                  auto_build := PyVal.bool true,
                  auto_build_channels := PyVal.none,
                  build_path := PyVal.none,
                  store_channels := PyVal.list [PyVal.str "latest/edge"],
                  store_upload := PyVal.bool true }] }

/-- Counterexample to claim C5 as stated: the read-only diff flow
reconciles a project whose remote owner (`mallory`) differs from the team
(`team-a`) with no ownership error of any kind: the recipe listing, the
branch listing and the recipe diffing all happen (the trace ends with
`listRecipes, listBranches`, and the per-recipe map contains the diffed
entry `awesome.main.latest`). -/
theorem print_diff_ignores_ownership :
    ((print_diff_calc diffDemoProject diffDemoEnv).2
      = [LPCall.getProject, LPCall.getTeam, LPCall.getRepo,
         LPCall.listRecipes, LPCall.listBranches]) ∧
    ((print_diff_calc diffDemoProject diffDemoEnv).1.map
        (fun o => o.map (fun i => i.in_config_recipes.map Prod.fst))
      = Except.ok (some ["awesome.main.latest"])) ∧
    (diffDemoEnv.project
      = some { name := "awesome", owner := "mallory", vcs := true }) ∧
    (diffDemoEnv.team = some "team-a") ∧
    ("mallory" ≠ "team-a") :=
  ⟨rfl, rfl, rfl, rfl, by decide⟩

/-- A per-recipe entry in the `exists=False` (needs creating) state, for
the recipe name `awesome.main.latest`. -/
def applyDemoCreate : RecipeState :=
  { exists_ := false, changed := false, current_recipe := Option.none,
    updated_parts := Option.none, changes := [],
    build_from := { recipe_name := "awesome.main.latest",
                    branch_info := default_branch_info,
                    lp_branch := "refs/heads/main",
                    store_name := PyVal.str "awesome",
                    channels := ["latest/edge"] } }

/-- A per-recipe entry for an existing, unchanged remote recipe. -/
def applyDemoUnchanged : RecipeState :=
  { exists_ := true, changed := false,
    current_recipe := some ({ name := "awesome.stable.latest",
                              auto_build := PyVal.bool true,
                              auto_build_channels := PyVal.none,
                              build_path := PyVal.none,
                              store_channels := PyVal.list [PyVal.str "latest/stable"],
                              store_upload := PyVal.bool true } : LPRecipe),
    updated_parts := some [], changes := [],
    build_from := { recipe_name := "awesome.stable.latest",
                    branch_info := default_branch_info,
                    lp_branch := "refs/heads/stable",
                    store_name := PyVal.str "awesome",
                    channels := ["latest/stable"] } }

/-- Claim C1 (code bug): the confirmed apply phase never performs the
claimed per-entry gateway calls.  At a per-recipe map holding one
`exists=False` entry the loop
`for recipe_name, state in current['in_config_recipes']` (missing
`.items()`, `charm_project.py:287` / `main.py:306`) tuple-unpacks the dict
keys and raises `ValueError` before any `createRecipe` call; and when any
existing unchanged entry is present the gate
`any_changes = all(not(r['exists']) or r['changed'])`
(`charm_project.py:279-281`) is false, so the apply returns "No changes
needed" without creating the pending `exists=False` recipe. -/
theorem ensure_charm_recipes_apply_bug :
    (ensureCharmRecipesApply [("awesome.main.latest", applyDemoCreate)]
      = Except.error (PyError.valueError "unpack mismatch iterating dict keys")) ∧
    (ensureCharmRecipesApply
        [("awesome.stable.latest", applyDemoUnchanged),
         ("awesome.main.latest", applyDemoCreate)]
      = Except.ok []) :=
  ⟨rfl, rfl⟩

end LPBuilder
